import Mathlib

set_option maxRecDepth 100000

/-!
Verification development for the generation-swap coordination layer of the
`infiton/reproductions` dev-server (file
`src/vitejs-vite-20609-browser-hash-conflict/server.ts`).

The source file contains two variants of the server:

* a "hold/drain" variant built around `restartVite`, `restartPromise`,
  `pendingHttpRequests`, `pendingWsConnections` and an HMR websocket proxy
  (modelled in namespace `HoldDrain` below), and
* a "waterfall" variant that captures the vite server per request and triggers
  a restart on the 20th request (modelled in namespace `Waterfall`).

The embedding is a small-step state machine.  Node's single-threaded
cooperative scheduling is modelled by letting external actions (request
arrival, connection arrival, client disconnect, a call to `restartVite`)
interleave with the in-flight restart body at its `await` points; the restart
body is split into exactly the segments delimited by its `await`s:

* `provisioning` — between the start of the body and the resolution of
  `getPort()` / `createServer(...)`;
* `preloading`   — after `serverIdCounter++; activeVite = newServer;
  activeHmrPort = hmrPort;`, while `getServerBuild(newServer)`
  (`ssrLoadModule`) is pending;
* `closing`      — after the synchronous flush of both pending queues,
  `serverBuildCache.delete(oldServer)` and the invocation of
  `oldServer.close()`, while that close is pending.

Vite servers are identified by their `serverIdCounter` value; each server's
HMR port is identified with the id of the generation owning it.  The one-shot
cold-start cache clear (`isFirstStart` guarding an `fs.rm` of
`node_modules/.vite`) is a filesystem side effect with no influence on the
coordinator state and is not modelled.  Promises are
identified by a counter so that "returns the existing in-flight promise" is
expressible.  Within one synchronous segment the code runs without
interleaving, so each segment is one step of the machine; calls to `resolve()`
release a held continuation synchronously while the continuation body itself
runs as a microtask after the current synchronous segment — the trace
therefore contains separate "resume" (release) and "run" (continuation
executes, reading `activeVite` / `activeHmrPort` at that moment) events.
-/

namespace HoldDrain

/-- Phase of the in-flight `restartVite` body, i.e. which `await` the body is
suspended at.  `rejected` is the state in which `restartPromise` still holds a
settled-rejected promise: the body has stopped but the variable was never
reset (the code only sets `restartPromise = null` at the successful end of the
body). -/
inductive Phase where
  | provisioning (old : Option Nat)
  | preloading (old : Option Nat) (gen : Nat)
  | closing (old : Nat)
  | rejected
deriving DecidableEq, Repr

/-- A held HTTP request: the continuation pushed onto `pendingHttpRequests`.
`activeAtHold` is a ghost observation of `activeVite` at the moment the hold
began, and `preInstall` records whether the hold began before the in-flight
swap executed `activeVite = newServer` (i.e. during `provisioning`). -/
structure Hold where
  rid : Nat
  activeAtHold : Option Nat
  preInstall : Bool
deriving DecidableEq, Repr

/-- The process-wide mutable state of the hold/drain server. -/
structure St where
  activeVite : Option Nat
  activeHmrPort : Option Nat
  serverIdCounter : Nat
  promCounter : Nat
  restartPromise : Option (Nat × Phase)
  pendingHttpRequests : List Hold
  pendingWsConnections : List Nat
  serverBuildCache : List Nat
  hasTriggeredRestart : Bool
  waitingInit : List Nat
deriving DecidableEq, Repr

/-- Trace events.  `resumeHttp`/`resumeWs` are the synchronous `resolve()`
calls in the flush loops; `runHttp`/`connectAttempt`/`socketDestroyed` are the
continuation bodies executing afterwards.  `connectAttempt c port` records an
outbound `net.connect(port, ...)` for connection `c`. -/
inductive Ev where
  | swapStarted (p : Nat) (old : Option Nat)
  | triggerReturned (p : Nat)
  | swapRejected (p : Nat)
  | provisioned (gen : Nat)
  | activeSwapped (gen : Nat)
  | ssrLoadStarted (gen : Nat)
  | artifactLoaded (gen : Nat)
  | httpQueueCleared
  | resumeHttp (r : Nat)
  | wsQueueCleared
  | resumeWs (c : Nat)
  | cacheEvicted (gen : Nat)
  | closeInvoked (gen : Nat)
  | closedDone (gen : Nat)
  | promiseCleared (p : Nat)
  | runHttp (r : Nat) (bound : Option Nat)
  | connectAttempt (c : Nat) (port : Nat)
  | socketDestroyed (c : Nat)
  | httpHeld (r : Nat) (activeAtHold : Option Nat) (preInstall : Bool)
  | httpBound (r : Nat) (bound : Option Nat)
  | httpWaitingInit (r : Nat)
  | wsHeld (c : Nat)
  | wsClientDisconnected (c : Nat)
deriving DecidableEq, Repr

/-- External actions interleaved with the restart body.  `advanceSwap fail`
resolves (or, when `fail = true`, rejects) the `await` the in-flight restart
body is currently suspended at. -/
inductive Act where
  | trigger
  | httpArrive (r : Nat) (envMjs : Bool)
  | wsArrive (c : Nat)
  | wsDisconnect (c : Nat)
  | advanceSwap (fail : Bool)
deriving DecidableEq, Repr

/-- A call to `restartVite()`: if a restart is already in flight (or the kept
promise is rejected — the variable is never reset on failure) the existing
promise is returned; otherwise the body starts and `restartPromise` is set to
a fresh promise before any other code can run (the body suspends at its first
`await`). -/
def restartVite (s : St) : St × List Ev :=
  match s.restartPromise with
  | some (p, _) => (s, [Ev.triggerReturned p])
  | none =>
      let p := s.promCounter + 1
      ({ s with promCounter := p,
                restartPromise := some (p, Phase.provisioning s.activeVite) },
       [Ev.swapStarted p s.activeVite])

/-- One resolution step of the in-flight restart body (the segment of the body
between two `await`s), mirroring the body of `restartVite` in the source:
provision the new server, install it (`activeVite`/`activeHmrPort` are swapped
*before* the build preload), preload the build, synchronously flush both hold
queues, evict and close the old server, and finally clear `restartPromise`.
Failures (`fail = true`) reject the promise; the variable keeps the rejected
promise.  A failing `oldServer.close()` is caught in the source, so the
closing segment continues identically on failure. -/
def advanceStep (s : St) (fail : Bool) : St × List Ev :=
  match s.restartPromise with
  | none => (s, [])
  | some (p, ph) =>
    match ph with
    | Phase.rejected => (s, [])
    | Phase.provisioning old =>
        if fail then
          ({ s with restartPromise := some (p, Phase.rejected) }, [Ev.swapRejected p])
        else
          let g := s.serverIdCounter + 1
          ({ s with serverIdCounter := g,
                    activeVite := some g,
                    activeHmrPort := some g,
                    restartPromise := some (p, Phase.preloading old g) },
           [Ev.provisioned g, Ev.activeSwapped g, Ev.ssrLoadStarted g])
    | Phase.preloading old g =>
        if fail then
          ({ s with restartPromise := some (p, Phase.rejected) }, [Ev.swapRejected p])
        else
          match old with
          | some o =>
              ({ s with serverBuildCache := (s.serverBuildCache ++ [g]).filter (fun x => x != o),
                        pendingHttpRequests := [],
                        pendingWsConnections := [],
                        restartPromise := some (p, Phase.closing o) },
               [Ev.artifactLoaded g, Ev.httpQueueCleared]
                 ++ s.pendingHttpRequests.map (fun h => Ev.resumeHttp h.rid)
                 ++ [Ev.wsQueueCleared]
                 ++ s.pendingWsConnections.map Ev.resumeWs
                 ++ [Ev.cacheEvicted o, Ev.closeInvoked o]
                 ++ s.pendingHttpRequests.map (fun h => Ev.runHttp h.rid (some g))
                 ++ s.pendingWsConnections.map (fun c => Ev.connectAttempt c g))
          | none =>
              ({ s with serverBuildCache := s.serverBuildCache ++ [g],
                        pendingHttpRequests := [],
                        pendingWsConnections := [],
                        restartPromise := none,
                        waitingInit := [] },
               [Ev.artifactLoaded g, Ev.httpQueueCleared]
                 ++ s.pendingHttpRequests.map (fun h => Ev.resumeHttp h.rid)
                 ++ [Ev.wsQueueCleared]
                 ++ s.pendingWsConnections.map Ev.resumeWs
                 ++ [Ev.promiseCleared p]
                 ++ s.pendingHttpRequests.map (fun h => Ev.runHttp h.rid (some g))
                 ++ s.pendingWsConnections.map (fun c => Ev.connectAttempt c g)
                 ++ s.waitingInit.map (fun r => Ev.runHttp r (some g)))
    | Phase.closing o =>
        ({ s with restartPromise := none, waitingInit := [] },
         [Ev.closedDone o, Ev.promiseCleared p]
           ++ s.waitingInit.map (fun r => Ev.runHttp r s.activeVite))

/-- The fastify `onRequest` hook for request `r`: possibly trigger a restart
(`request.url.includes("env.mjs") && !hasTriggeredRestart`), then hold the
request if `restartPromise` is non-null, else lazily start the first server
(`ensureFirstServer` awaits the first swap's own promise rather than joining
the hold queue), else bind `activeVite` and its build (a cache hit, or a load
that stores into `serverBuildCache`). -/
def httpArriveStep (s : St) (r : Nat) (envMjs : Bool) : St × List Ev :=
  let t :=
    if envMjs && !s.hasTriggeredRestart then
      restartVite { s with hasTriggeredRestart := true }
    else (s, [])
  let s1 := t.1
  match s1.restartPromise with
  | some (_, ph) =>
      let pre := match ph with | Phase.provisioning _ => true | _ => false
      ({ s1 with pendingHttpRequests :=
           s1.pendingHttpRequests ++ [⟨r, s1.activeVite, pre⟩] },
       t.2 ++ [Ev.httpHeld r s1.activeVite pre])
  | none =>
      match s1.activeVite with
      | some g =>
          if g ∈ s1.serverBuildCache then
            (s1, t.2 ++ [Ev.httpBound r (some g)])
          else
            ({ s1 with serverBuildCache := s1.serverBuildCache ++ [g] },
             t.2 ++ [Ev.httpBound r (some g)])
      | none =>
          let u := restartVite s1
          ({ u.1 with waitingInit := u.1.waitingInit ++ [r] },
           t.2 ++ u.2 ++ [Ev.httpWaitingInit r])

/-- The HMR proxy `upgrade` handler for connection `c`: hold the connection if
a restart is in flight; otherwise read `activeHmrPort` — if it is null the
inbound socket is destroyed and no outbound connect happens, else an outbound
connect to the port is attempted. -/
def wsArriveStep (s : St) (c : Nat) : St × List Ev :=
  match s.restartPromise with
  | some _ =>
      ({ s with pendingWsConnections := s.pendingWsConnections ++ [c] },
       [Ev.wsHeld c])
  | none =>
      match s.activeHmrPort with
      | none => (s, [Ev.socketDestroyed c])
      | some port => (s, [Ev.connectAttempt c port])

/-- Small-step transition.  `wsDisconnect c` models the client of a held
connection disconnecting: the source installs no handler for this while the
connection is held, so the state (in particular `pendingWsConnections`) is
untouched and only a ghost event is recorded. -/
def step (s : St) (a : Act) : St × List Ev :=
  match a with
  | Act.trigger => restartVite s
  | Act.httpArrive r envMjs => httpArriveStep s r envMjs
  | Act.wsArrive c => wsArriveStep s c
  | Act.wsDisconnect c => (s, [Ev.wsClientDisconnected c])
  | Act.advanceSwap fail => advanceStep s fail

/-- Run a schedule of actions, collecting the trace. -/
def run (s : St) : List Act → St × List Ev
  | [] => (s, [])
  | a :: rest =>
      let t := step s a
      let u := run t.1 rest
      (u.1, t.2 ++ u.2)

/-- The state at process start, matching the source's initializers. -/
def startSt : St :=
  { activeVite := none
    activeHmrPort := none
    serverIdCounter := 0
    promCounter := 0
    restartPromise := none
    pendingHttpRequests := []
    pendingWsConnections := []
    serverBuildCache := []
    hasTriggeredRestart := false
    waitingInit := [] }

/-- Event classifier: a `resolve()` call releasing a held unit of work. -/
def isResumeEv : Ev → Bool
  | Ev.resumeHttp _ => true
  | Ev.resumeWs _ => true
  | _ => false

/-- Event classifier: a released continuation body executing. -/
def isRunEv : Ev → Bool
  | Ev.runHttp _ _ => true
  | Ev.connectAttempt _ _ => true
  | Ev.socketDestroyed _ => true
  | _ => false

/-- Event classifier: `oldServer.close()` being invoked. -/
def isCloseInvokedEv : Ev → Bool
  | Ev.closeInvoked _ => true
  | _ => false

/-- Event classifier: the new generation's build finished loading. -/
def isArtifactLoadedEv : Ev → Bool
  | Ev.artifactLoaded _ => true
  | _ => false

/-- Event classifier: a hold queue being replaced by a fresh empty queue. -/
def isQueueClearedEv : Ev → Bool
  | Ev.httpQueueCleared => true
  | Ev.wsQueueCleared => true
  | _ => false

/-- In trace `t`, no `p`-event occurs at or after a `q`-event; i.e. every
`p`-event strictly precedes every `q`-event. -/
def eachBefore (p q : Ev → Bool) : List Ev → Bool
  | [] => true
  | e :: t => (!(q e) || t.all (fun x => !(p x))) && eachBefore p q t

/-- Validity of one entry of `pendingHttpRequests` relative to the in-flight
swap: a hold taken before the install point records the `activeVite` of the
swap's start, and after the install point that value is strictly below the
installed generation. -/
def holdOk (s : St) (h : Hold) : Bool :=
  !h.preInstall ||
    (match s.restartPromise with
     | some (_, Phase.provisioning _) => h.activeAtHold == s.activeVite
     | some (_, Phase.preloading _ g) =>
         match h.activeAtHold with
         | none => true
         | some x => decide (x < g)
     | some (_, Phase.rejected) => true
     | _ => false)

/-- State invariant of the hold/drain machine: generation ids never exceed
`serverIdCounter` (so a freshly provisioned id is new), the captured
`oldServer` of an in-flight swap matches the semantics of the body, and every
pre-install hold is consistent (`holdOk`). -/
def invB (s : St) : Bool :=
  (match s.activeVite with
   | none => true
   | some g => decide (g ≤ s.serverIdCounter)) &&
  s.serverBuildCache.all (fun c => decide (c ≤ s.serverIdCounter)) &&
  (match s.restartPromise with
   | some (_, Phase.provisioning old) => old == s.activeVite
   | some (_, Phase.preloading old g) =>
       decide (g = s.serverIdCounter) && (s.activeVite == some g) &&
       (s.activeHmrPort == some g) &&
       (match old with | none => true | some o => decide (o < g))
   | _ => true) &&
  s.pendingHttpRequests.all (fun h => holdOk s h)

/-- Generation `g` can still be evicted from `serverBuildCache` by a future
step: it is the current `activeVite`, or the captured `oldServer` of the
in-flight swap. -/
def mayEvictB (s : St) (g : Nat) : Bool :=
  (s.activeVite == some g) ||
    (match s.restartPromise with
     | some (_, Phase.provisioning old) => old == some g
     | some (_, Phase.preloading old _) => old == some g
     | _ => false)

/-- Generation `g` is definitively past: it was already created (id not above
`serverIdCounter`) and can never be evicted again. -/
def goneB (s : St) (g : Nat) : Bool :=
  decide (g ≤ s.serverIdCounter) && !mayEvictB s g

/-- The only step that creates a generation: the in-flight swap's
`createServer` resolving successfully. -/
def provisionAdvance (s : St) (a : Act) : Bool :=
  match a, s.restartPromise with
  | Act.advanceSwap false, some (_, Phase.provisioning _) => true
  | _, _ => false

/-- The `getServerBuild` function of the source over an explicit association
list keyed by generation identity, with the backend's `ssrLoadModule` as the
parameter `load`.  Returns the new cache, the returned build, and how many
times `load` was invoked by this call. -/
def getServerBuild (load : Nat → Nat) (cache : List (Nat × Nat)) (g : Nat) :
    List (Nat × Nat) × Nat × Nat :=
  match cache.lookup g with
  | some b => (cache, b, 0)
  | none => (cache ++ [(g, load g)], load g, 1)

end HoldDrain

namespace Waterfall

/-!
Model of the first ("waterfall") variant in the source file.  The hook
captures `vite.server` and `restarting !== null` on entry, increments
`waterfallCounter`, starts `restartVite()` when the position equals
`waterfallRestartOn` (20), and then either awaits the restart promise and
binds the post-restart `vite.server`, or binds the captured server.  The
restart body is collapsed into the single `resolveRestart` action: positions
that could observe its intermediate `vite.server` assignment all take the
await branch, so the collapse does not change any binding.
-/

/-- Status of the `restarting` variable: never set, a pending promise, or a
promise that has already resolved (the variable is not reset outside the
cold-start branch). -/
inductive RSt where
  | off
  | pending
  | resolved
deriving DecidableEq, Repr

/-- State of the waterfall variant.  `bindings` accumulates, per waterfall
position, the server id assigned to `request.viteServer`. -/
structure WSt where
  viteServer : Nat
  serverIdCounter : Nat
  waterfallCounter : Nat
  restarting : RSt
  held : List Nat
  bindings : List (Nat × Nat)
deriving DecidableEq, Repr

/-- Actions: an ordinary (non-`/`) request arriving, or the in-flight restart
resolving. -/
inductive WAct where
  | arrive
  | resolveRestart
deriving DecidableEq, Repr

/-- The trigger threshold `waterfallRestartOn` of the source. -/
def waterfallRestartOn : Nat := 20

/-- One step of the waterfall variant. -/
def wstep (s : WSt) (a : WAct) : WSt :=
  match a with
  | WAct.arrive =>
      let captured := s.viteServer
      let restartWasAlreadyInProgress := s.restarting != RSt.off
      let p := s.waterfallCounter + 1
      let restarting1 :=
        if p = waterfallRestartOn then RSt.pending else s.restarting
      let shouldUseNewServer :=
        waterfallRestartOn ≤ p || restartWasAlreadyInProgress
      if shouldUseNewServer && (restarting1 != RSt.off) then
        match restarting1 with
        | RSt.pending =>
            { s with waterfallCounter := p, restarting := restarting1,
                     held := s.held ++ [p] }
        | _ =>
            { s with waterfallCounter := p, restarting := restarting1,
                     bindings := s.bindings ++ [(p, s.viteServer)] }
      else
        { s with waterfallCounter := p, restarting := restarting1,
                 bindings := s.bindings ++ [(p, captured)] }
  | WAct.resolveRestart =>
      match s.restarting with
      | RSt.pending =>
          let newId := s.serverIdCounter + 1
          { s with serverIdCounter := newId, viteServer := newId,
                   restarting := RSt.resolved, held := [],
                   bindings := s.bindings ++ s.held.map (fun p => (p, newId)) }
      | _ => s

/-- Run a schedule of waterfall actions. -/
def wrun (s : WSt) : List WAct → WSt
  | [] => s
  | a :: rest => wrun (wstep s a) rest

/-- State after the startup `await restartVite()`: server #1 is active, no
request seen yet, `restarting` never assigned. -/
def startWSt : WSt :=
  { viteServer := 1, serverIdCounter := 1, waterfallCounter := 0,
    restarting := RSt.off, held := [], bindings := [] }

/-- The scenario of the Nth-request trigger policy: 39 ordinary requests
arrive in order, and the restart triggered by the 20th resolves only after
the 39th arrived. -/
def scenario : List WAct :=
  List.replicate 39 WAct.arrive ++ [WAct.resolveRestart]

end Waterfall

namespace HoldDrain

theorem eachBefore_of_all_not_p {p q : Ev → Bool} :
    ∀ {t : List Ev}, t.all (fun x => !(p x)) = true → eachBefore p q t = true := by
  intro t
  induction t with
  | nil => intro _; rfl
  | cons e t ih =>
      intro h
      simp only [List.all_cons, Bool.and_eq_true] at h
      simp only [eachBefore, Bool.and_eq_true]
      exact ⟨by simp [h.2], ih h.2⟩

theorem eachBefore_cons_of_all_not_p {p q : Ev → Bool} {e : Ev} {t : List Ev}
    (h : t.all (fun x => !(p x)) = true) : eachBefore p q (e :: t) = true := by
  simp only [eachBefore, Bool.and_eq_true]
  exact ⟨by simp [h], eachBefore_of_all_not_p h⟩

theorem eachBefore_append_left {p q : Ev → Bool} {xs ys : List Ev}
    (hxs : xs.all (fun x => !(q x)) = true) (hys : eachBefore p q ys = true) :
    eachBefore p q (xs ++ ys) = true := by
  induction xs with
  | nil => simpa using hys
  | cons e xs ih =>
      simp only [List.all_cons, Bool.and_eq_true] at hxs
      simp only [List.cons_append, eachBefore, Bool.and_eq_true]
      exact ⟨by simp [hxs.1], ih hxs.2⟩

theorem eachBefore_split {p q : Ev → Bool} {xs ys : List Ev}
    (hxs : xs.all (fun x => !(q x)) = true) (hys : ys.all (fun x => !(p x)) = true) :
    eachBefore p q (xs ++ ys) = true :=
  eachBefore_append_left hxs (eachBefore_of_all_not_p hys)

theorem restartVite_inflight {s : St} {p : Nat} {ph : Phase}
    (h : s.restartPromise = some (p, ph)) :
    restartVite s = (s, [Ev.triggerReturned p]) := by
  simp [restartVite, h]

theorem restartVite_fresh {s : St} (h : s.restartPromise = none) :
    restartVite s =
      ({ s with promCounter := s.promCounter + 1,
                restartPromise :=
                  some (s.promCounter + 1, Phase.provisioning s.activeVite) },
       [Ev.swapStarted (s.promCounter + 1) s.activeVite]) := by
  simp [restartVite, h]

theorem advanceStep_idle {s : St} {fail : Bool} (h : s.restartPromise = none) :
    advanceStep s fail = (s, []) := by
  simp [advanceStep, h]

theorem advanceStep_rejected {s : St} {fail : Bool} {p : Nat}
    (h : s.restartPromise = some (p, Phase.rejected)) :
    advanceStep s fail = (s, []) := by
  simp [advanceStep, h]

theorem advanceStep_provision_fail {s : St} {p : Nat} {old : Option Nat}
    (h : s.restartPromise = some (p, Phase.provisioning old)) :
    advanceStep s true =
      ({ s with restartPromise := some (p, Phase.rejected) }, [Ev.swapRejected p]) := by
  simp [advanceStep, h]

theorem advanceStep_provision_ok {s : St} {p : Nat} {old : Option Nat}
    (h : s.restartPromise = some (p, Phase.provisioning old)) :
    advanceStep s false =
      ({ s with serverIdCounter := s.serverIdCounter + 1,
                activeVite := some (s.serverIdCounter + 1),
                activeHmrPort := some (s.serverIdCounter + 1),
                restartPromise :=
                  some (p, Phase.preloading old (s.serverIdCounter + 1)) },
       [Ev.provisioned (s.serverIdCounter + 1), Ev.activeSwapped (s.serverIdCounter + 1),
        Ev.ssrLoadStarted (s.serverIdCounter + 1)]) := by
  simp [advanceStep, h]

theorem advanceStep_preload_fail {s : St} {p : Nat} {old : Option Nat} {g : Nat}
    (h : s.restartPromise = some (p, Phase.preloading old g)) :
    advanceStep s true =
      ({ s with restartPromise := some (p, Phase.rejected) }, [Ev.swapRejected p]) := by
  simp [advanceStep, h]

theorem advanceStep_flush_some {s : St} {p : Nat} {o g : Nat}
    (h : s.restartPromise = some (p, Phase.preloading (some o) g)) :
    advanceStep s false =
      ({ s with serverBuildCache := (s.serverBuildCache ++ [g]).filter (fun x => x != o),
                pendingHttpRequests := [],
                pendingWsConnections := [],
                restartPromise := some (p, Phase.closing o) },
       [Ev.artifactLoaded g, Ev.httpQueueCleared]
         ++ s.pendingHttpRequests.map (fun h => Ev.resumeHttp h.rid)
         ++ [Ev.wsQueueCleared]
         ++ s.pendingWsConnections.map Ev.resumeWs
         ++ [Ev.cacheEvicted o, Ev.closeInvoked o]
         ++ s.pendingHttpRequests.map (fun h => Ev.runHttp h.rid (some g))
         ++ s.pendingWsConnections.map (fun c => Ev.connectAttempt c g)) := by
  simp [advanceStep, h]

theorem advanceStep_flush_none {s : St} {p : Nat} {g : Nat}
    (h : s.restartPromise = some (p, Phase.preloading none g)) :
    advanceStep s false =
      ({ s with serverBuildCache := s.serverBuildCache ++ [g],
                pendingHttpRequests := [],
                pendingWsConnections := [],
                restartPromise := none,
                waitingInit := [] },
       [Ev.artifactLoaded g, Ev.httpQueueCleared]
         ++ s.pendingHttpRequests.map (fun h => Ev.resumeHttp h.rid)
         ++ [Ev.wsQueueCleared]
         ++ s.pendingWsConnections.map Ev.resumeWs
         ++ [Ev.promiseCleared p]
         ++ s.pendingHttpRequests.map (fun h => Ev.runHttp h.rid (some g))
         ++ s.pendingWsConnections.map (fun c => Ev.connectAttempt c g)
         ++ s.waitingInit.map (fun r => Ev.runHttp r (some g))) := by
  simp [advanceStep, h]

theorem advanceStep_closing {s : St} {fail : Bool} {p : Nat} {o : Nat}
    (h : s.restartPromise = some (p, Phase.closing o)) :
    advanceStep s fail =
      ({ s with restartPromise := none, waitingInit := [] },
       [Ev.closedDone o, Ev.promiseCleared p]
         ++ s.waitingInit.map (fun r => Ev.runHttp r s.activeVite)) := by
  simp [advanceStep, h]

theorem httpArriveStep_held {s : St} {r : Nat} {p : Nat} {ph : Phase}
    (h : s.restartPromise = some (p, ph)) :
    httpArriveStep s r false =
      ({ s with pendingHttpRequests :=
           s.pendingHttpRequests
             ++ [⟨r, s.activeVite,
                  match ph with | Phase.provisioning _ => true | _ => false⟩] },
       [Ev.httpHeld r s.activeVite
          (match ph with | Phase.provisioning _ => true | _ => false)]) := by
  cases ph <;> simp [httpArriveStep, h]

theorem httpArriveStep_bound_cached {s : St} {r g : Nat}
    (h : s.restartPromise = none) (ha : s.activeVite = some g)
    (hc : g ∈ s.serverBuildCache) :
    httpArriveStep s r false = (s, [Ev.httpBound r (some g)]) := by
  simp [httpArriveStep, h, ha, hc]

theorem httpArriveStep_bound_load {s : St} {r g : Nat}
    (h : s.restartPromise = none) (ha : s.activeVite = some g)
    (hc : g ∉ s.serverBuildCache) :
    httpArriveStep s r false =
      ({ s with serverBuildCache := s.serverBuildCache ++ [g] },
       [Ev.httpBound r (some g)]) := by
  simp [httpArriveStep, h, ha, hc]

theorem httpArriveStep_first {s : St} {r : Nat}
    (h : s.restartPromise = none) (ha : s.activeVite = none) :
    httpArriveStep s r false =
      ({ s with promCounter := s.promCounter + 1,
                restartPromise := some (s.promCounter + 1, Phase.provisioning none),
                waitingInit := s.waitingInit ++ [r] },
       [Ev.swapStarted (s.promCounter + 1) none, Ev.httpWaitingInit r]) := by
  simp [httpArriveStep, h, restartVite, ha]

theorem wsArriveStep_held {s : St} {c : Nat} {pp : Nat × Phase}
    (h : s.restartPromise = some pp) :
    wsArriveStep s c =
      ({ s with pendingWsConnections := s.pendingWsConnections ++ [c] },
       [Ev.wsHeld c]) := by
  simp [wsArriveStep, h]

theorem wsArriveStep_noPort {s : St} (h : s.restartPromise = none)
    (hp : s.activeHmrPort = none) {c : Nat} :
    wsArriveStep s c = (s, [Ev.socketDestroyed c]) := by
  simp [wsArriveStep, h, hp]

theorem invB_restartVite {s : St} (h : invB s = true) : invB (restartVite s).1 = true := by
  cases hr : s.restartPromise with
  | some pp =>
      obtain ⟨p, ph⟩ := pp
      rw [restartVite_inflight hr]
      exact h
  | none =>
      rw [restartVite_fresh hr]
      simp only [invB, holdOk, hr, Bool.and_eq_true] at h
      obtain ⟨⟨⟨h1, h2⟩, _⟩, h4⟩ := h
      simp only [invB, holdOk, Bool.and_eq_true]
      refine ⟨⟨⟨h1, h2⟩, by simp⟩, ?_⟩
      rw [List.all_eq_true] at h4 ⊢
      intro x hx
      have hx' := h4 x hx
      simp only [Bool.or_false] at hx'
      simp [hx']

theorem invB_advanceStep {s : St} {fail : Bool} (h : invB s = true) :
    invB (advanceStep s fail).1 = true := by
  cases hr : s.restartPromise with
  | none => rw [advanceStep_idle hr]; exact h
  | some pp =>
      obtain ⟨p, ph⟩ := pp
      cases ph with
      | rejected => rw [advanceStep_rejected hr]; exact h
      | provisioning old =>
          simp only [invB, holdOk, hr, Bool.and_eq_true] at h
          obtain ⟨⟨⟨h1, h2⟩, h3⟩, h4⟩ := h
          have hold : old = s.activeVite := by simpa using h3
          cases fail with
          | true =>
              rw [advanceStep_provision_fail hr]
              simp only [invB, holdOk, Bool.and_eq_true]
              refine ⟨⟨⟨h1, h2⟩, by simp⟩, ?_⟩
              rw [List.all_eq_true]
              intro x hx
              simp
          | false =>
              rw [advanceStep_provision_ok hr]
              simp only [invB, holdOk, Bool.and_eq_true]
              refine ⟨⟨⟨by simp, ?_⟩, ?_⟩, ?_⟩
              · rw [List.all_eq_true] at h2 ⊢
                intro x hx
                have := h2 x hx
                simp only [decide_eq_true_eq] at this ⊢
                omega
              · subst hold
                cases ha : s.activeVite with
                | none => simp
                | some o =>
                    have ho : o ≤ s.serverIdCounter := by
                      rw [ha] at h1; simpa using h1
                    simp only [Bool.and_eq_true]
                    exact ⟨⟨⟨by simp, by simp⟩, by simp⟩, by simp [Nat.lt_succ_of_le ho]⟩
              · rw [List.all_eq_true] at h4 ⊢
                intro x hx
                have hx' := h4 x hx
                simp only [Bool.or_eq_true] at hx' ⊢
                rcases hx' with hpre | hbeq
                · exact Or.inl hpre
                · refine Or.inr ?_
                  have hxa : x.activeAtHold = s.activeVite := by simpa using hbeq
                  cases hax : x.activeAtHold with
                  | none => simp
                  | some v =>
                      rw [hax] at hxa
                      rw [← hxa] at h1
                      have hv : v ≤ s.serverIdCounter := by simpa using h1
                      simp [Nat.lt_succ_of_le hv]
      | preloading old g =>
          simp only [invB, holdOk, hr, Bool.and_eq_true] at h
          obtain ⟨⟨⟨h1, h2⟩, h3⟩, h4⟩ := h
          simp only [Bool.and_eq_true, decide_eq_true_eq] at h3
          obtain ⟨⟨⟨hg, hav⟩, hport⟩, holdg⟩ := h3
          cases fail with
          | true =>
              rw [advanceStep_preload_fail hr]
              simp only [invB, holdOk, Bool.and_eq_true]
              refine ⟨⟨⟨h1, h2⟩, by simp⟩, ?_⟩
              rw [List.all_eq_true]
              intro x hx
              simp
          | false =>
              cases hO : old with
              | none =>
                  rw [hO] at hr
                  rw [advanceStep_flush_none hr]
                  simp only [invB, holdOk, Bool.and_eq_true]
                  refine ⟨⟨⟨h1, ?_⟩, by simp⟩, by simp⟩
                  rw [List.all_eq_true] at h2 ⊢
                  intro x hx
                  rcases List.mem_append.mp hx with hx' | hx'
                  · exact h2 x hx'
                  · simp only [List.mem_singleton] at hx'
                    subst hx'
                    simp [hg]
              | some o =>
                  rw [hO] at hr
                  rw [advanceStep_flush_some hr]
                  simp only [invB, holdOk, Bool.and_eq_true]
                  refine ⟨⟨⟨h1, ?_⟩, by simp⟩, by simp⟩
                  rw [List.all_eq_true] at h2 ⊢
                  intro x hx
                  have hx' := List.mem_append.mp (List.mem_of_mem_filter hx)
                  rcases hx' with hx'' | hx''
                  · exact h2 x hx''
                  · simp only [List.mem_singleton] at hx''
                    subst hx''
                    simp [hg]
      | closing o =>
          simp only [invB, holdOk, hr, Bool.and_eq_true] at h
          obtain ⟨⟨⟨h1, h2⟩, _⟩, h4⟩ := h
          rw [advanceStep_closing hr]
          simp only [invB, holdOk, Bool.and_eq_true]
          refine ⟨⟨⟨h1, h2⟩, by simp⟩, ?_⟩
          rw [List.all_eq_true] at h4 ⊢
          intro x hx
          have hx' := h4 x hx
          simp only [Bool.or_false] at hx' ⊢
          exact hx'

theorem invB_httpArriveStep {s : St} {r : Nat} {envMjs : Bool} (h : invB s = true) :
    invB (httpArriveStep s r envMjs).1 = true := by
  have htr : invB ({ s with hasTriggeredRestart := true } : St) = true := h
  simp only [httpArriveStep]
  set t := if envMjs && !s.hasTriggeredRestart then
      restartVite { s with hasTriggeredRestart := true }
    else (s, []) with ht
  have hinv1 : invB t.1 = true := by
    rw [ht]
    split
    · exact invB_restartVite htr
    · exact h
  cases hp : t.1.restartPromise with
  | some pp =>
      obtain ⟨p, ph⟩ := pp
      simp only [hp]
      simp only [invB, holdOk, hp, Bool.and_eq_true] at hinv1
      obtain ⟨⟨⟨h1, h2⟩, h3⟩, h4⟩ := hinv1
      simp only [invB, holdOk, hp, Bool.and_eq_true]
      refine ⟨⟨⟨h1, h2⟩, h3⟩, ?_⟩
      rw [List.all_eq_true] at h4 ⊢
      intro x hx
      rcases List.mem_append.mp hx with hx' | hx'
      · exact h4 x hx'
      · simp only [List.mem_singleton] at hx'
        subst hx'
        cases ph <;> simp
  | none =>
      simp only [hp]
      cases ha : t.1.activeVite with
      | some g =>
          simp only [ha]
          split
          · exact hinv1
          · simp only [invB, holdOk, hp, Bool.and_eq_true] at hinv1
            obtain ⟨⟨⟨h1, h2⟩, h3⟩, h4⟩ := hinv1
            have h1' : decide (g ≤ t.1.serverIdCounter) = true := by
              rw [ha] at h1; simpa using h1
            simp only [invB, holdOk, hp, ha, Bool.and_eq_true]
            refine ⟨⟨⟨h1', ?_⟩, h3⟩, h4⟩
            simp only [List.all_eq_true] at h2 ⊢
            intro x hx
            rcases List.mem_append.mp hx with hx' | hx'
            · exact h2 x hx'
            · simp only [List.mem_singleton] at hx'
              subst hx'
              exact h1'
      | none =>
          simp only [ha]
          have hfresh := invB_restartVite hinv1
          simp only [invB, holdOk, Bool.and_eq_true] at hfresh ⊢
          obtain ⟨⟨⟨h1, h2⟩, h3⟩, h4⟩ := hfresh
          exact ⟨⟨⟨h1, h2⟩, h3⟩, h4⟩

theorem invB_step {s : St} {a : Act} (h : invB s = true) : invB (step s a).1 = true := by
  cases a with
  | trigger => exact invB_restartVite h
  | httpArrive r envMjs => exact invB_httpArriveStep h
  | wsArrive c =>
      cases hr : s.restartPromise with
      | some pp =>
          rw [step, wsArriveStep_held hr]
          simp only [invB, holdOk, hr, Bool.and_eq_true] at h ⊢
          exact h
      | none =>
          rw [step]
          cases hp : s.activeHmrPort with
          | none => rw [wsArriveStep_noPort hr hp]; exact h
          | some port => simp only [wsArriveStep, hr, hp]; exact h
  | wsDisconnect c => exact h
  | advanceSwap fail => exact invB_advanceStep h

theorem invB_run {s : St} (h : invB s = true) :
    ∀ acts : List Act, invB (run s acts).1 = true := by
  intro acts
  induction acts generalizing s h with
  | nil => exact h
  | cons a rest ih => exact ih (invB_step h)

theorem invB_startSt : invB startSt = true := by decide

/-- The step at hand is the one that evicts generation `g` from
`serverBuildCache`: a successful preload resolution of a swap whose captured
old server is `g`. -/
def evictsNow (s : St) (a : Act) (g : Nat) : Bool :=
  match a, s.restartPromise with
  | Act.advanceSwap false, some (_, Phase.preloading (some o) _) => o == g
  | _, _ => false

theorem count_evict_restartVite {s : St} {g : Nat} :
    ((restartVite s).2).count (Ev.cacheEvicted g) = 0 := by
  cases hr : s.restartPromise with
  | some pp =>
      obtain ⟨p, ph⟩ := pp
      rw [restartVite_inflight hr]
      simp
  | none =>
      rw [restartVite_fresh hr]
      simp

theorem count_evict_step {s : St} {a : Act} {g : Nat} :
    ((step s a).2).count (Ev.cacheEvicted g) =
      if evictsNow s a g = true then 1 else 0 := by
  cases a with
  | trigger =>
      have : evictsNow s Act.trigger g = false := rfl
      rw [this]
      simpa using count_evict_restartVite
  | httpArrive r envMjs =>
      have : evictsNow s (Act.httpArrive r envMjs) g = false := rfl
      rw [this]
      simp only [if_neg (by simp : ¬(false = true))]
      rw [List.count_eq_zero]
      simp only [step, httpArriveStep]
      set t := if envMjs && !s.hasTriggeredRestart then
          restartVite { s with hasTriggeredRestart := true }
        else (s, []) with ht
      have htmem : Ev.cacheEvicted g ∉ t.2 := by
        rw [ht]
        split
        · rw [← List.count_eq_zero]
          exact count_evict_restartVite
        · simp
      cases hp : t.1.restartPromise with
      | some pp =>
          obtain ⟨p, ph⟩ := pp
          simp only [hp, List.mem_append]
          rintro (hm | hm)
          · exact htmem hm
          · simp at hm
      | none =>
          simp only [hp]
          cases ha : t.1.activeVite with
          | some gg =>
              simp only [ha]
              split
              · simp only [List.mem_append]
                rintro (hm | hm)
                · exact htmem hm
                · simp at hm
              · simp only [List.mem_append]
                rintro (hm | hm)
                · exact htmem hm
                · simp at hm
          | none =>
              simp only [ha]
              have hu : Ev.cacheEvicted g ∉ (restartVite t.1).2 := by
                rw [← List.count_eq_zero]
                exact count_evict_restartVite
              simp only [List.mem_append]
              rintro ((hm | hm) | hm)
              · exact htmem hm
              · exact hu hm
              · simp at hm
  | wsArrive c =>
      have : evictsNow s (Act.wsArrive c) g = false := rfl
      rw [this]
      simp only [if_neg (by simp : ¬(false = true))]
      rw [List.count_eq_zero]
      simp only [step, wsArriveStep]
      cases hr : s.restartPromise with
      | some pp => simp
      | none => cases hp : s.activeHmrPort <;> simp
  | wsDisconnect c =>
      have : evictsNow s (Act.wsDisconnect c) g = false := rfl
      rw [this]
      simp [step]
  | advanceSwap fail =>
      cases hr : s.restartPromise with
      | none =>
          rw [show step s (Act.advanceSwap fail) = (s, []) from advanceStep_idle hr]
          simp [evictsNow, hr]
      | some pp =>
          obtain ⟨p, ph⟩ := pp
          cases ph with
          | rejected =>
              rw [show step s (Act.advanceSwap fail) = (s, []) from advanceStep_rejected hr]
              simp [evictsNow, hr]
          | provisioning old =>
              cases fail with
              | true =>
                  rw [show step s (Act.advanceSwap true) = _ from advanceStep_provision_fail hr]
                  simp [evictsNow, hr]
              | false =>
                  rw [show step s (Act.advanceSwap false) = _ from advanceStep_provision_ok hr]
                  simp [evictsNow, hr]
          | preloading old gnew =>
              cases fail with
              | true =>
                  rw [show step s (Act.advanceSwap true) = _ from advanceStep_preload_fail hr]
                  simp [evictsNow, hr]
              | false =>
                  cases old with
                  | none =>
                      rw [show step s (Act.advanceSwap false) = _ from advanceStep_flush_none hr]
                      simp only [evictsNow, hr]
                      simp [List.count_append, List.count_eq_zero]
                  | some o =>
                      rw [show step s (Act.advanceSwap false) = _ from advanceStep_flush_some hr]
                      simp only [evictsNow, hr]
                      by_cases ho : o = g
                      · subst ho
                        have m1 : (s.pendingHttpRequests.map (fun h => Ev.resumeHttp h.rid)).count
                            (Ev.cacheEvicted o) = 0 := by
                          rw [List.count_eq_zero]; simp
                        have m2 : (s.pendingWsConnections.map Ev.resumeWs).count
                            (Ev.cacheEvicted o) = 0 := by
                          rw [List.count_eq_zero]; simp
                        have m3 : (s.pendingHttpRequests.map (fun h => Ev.runHttp h.rid (some gnew))).count
                            (Ev.cacheEvicted o) = 0 := by
                          rw [List.count_eq_zero]; simp
                        have m4 : (s.pendingWsConnections.map (fun c => Ev.connectAttempt c gnew)).count
                            (Ev.cacheEvicted o) = 0 := by
                          rw [List.count_eq_zero]; simp
                        simp [List.count_append, List.count_cons, m1, m2, m3, m4]
                      · have hbe : (o == g) = false := by simp [ho]
                        rw [hbe]
                        simp only [if_neg (by simp : ¬(false = true))]
                        rw [List.count_eq_zero]
                        simp [ho, Ne.symm ho]
          | closing o =>
              rw [show step s (Act.advanceSwap fail) = _ from advanceStep_closing hr]
              simp [evictsNow, hr, List.count_append, List.count_eq_zero]

theorem goneB_restartVite {s : St} {g : Nat} (hg : goneB s g = true) :
    goneB (restartVite s).1 g = true := by
  cases hr : s.restartPromise with
  | some pp =>
      obtain ⟨p, ph⟩ := pp
      rw [restartVite_inflight hr]
      exact hg
  | none =>
      rw [restartVite_fresh hr]
      simp only [goneB, mayEvictB, hr, Bool.and_eq_true, Bool.not_eq_true',
        Bool.or_eq_false_iff] at hg ⊢
      exact ⟨hg.1, hg.2.1, hg.2.1⟩

theorem goneB_step {s : St} {a : Act} {g : Nat} (hg : goneB s g = true) :
    goneB (step s a).1 g = true := by
  have hle : (decide (g ≤ s.serverIdCounter)) = true := by
    simp only [goneB, Bool.and_eq_true] at hg
    exact hg.1
  have hav : (s.activeVite == some g) = false := by
    simp only [goneB, mayEvictB, Bool.and_eq_true, Bool.not_eq_true',
      Bool.or_eq_false_iff] at hg
    exact hg.2.1
  cases a with
  | trigger => exact goneB_restartVite hg
  | httpArrive r envMjs =>
      have hg' : goneB ({ s with hasTriggeredRestart := true } : St) g = true := hg
      simp only [step, httpArriveStep]
      set t := if envMjs && !s.hasTriggeredRestart then
          restartVite { s with hasTriggeredRestart := true }
        else (s, []) with ht
      have hgt : goneB t.1 g = true := by
        rw [ht]
        split
        · exact goneB_restartVite hg'
        · exact hg
      cases hp : t.1.restartPromise with
      | some pp =>
          obtain ⟨p, ph⟩ := pp
          simp only [hp]
          simp only [goneB, mayEvictB, hp, Bool.and_eq_true, Bool.not_eq_true',
            Bool.or_eq_false_iff] at hgt ⊢
          exact hgt
      | none =>
          simp only [hp]
          cases ha : t.1.activeVite with
          | some gg =>
              simp only [ha]
              split
              · exact hgt
              · simp only [goneB, mayEvictB, hp, ha, Bool.and_eq_true, Bool.not_eq_true',
                  Bool.or_eq_false_iff] at hgt ⊢
                exact hgt
          | none =>
              simp only [ha]
              have hnext := goneB_restartVite hgt
              simp only [goneB, mayEvictB, Bool.and_eq_true, Bool.not_eq_true',
                Bool.or_eq_false_iff] at hnext ⊢
              exact hnext
  | wsArrive c =>
      simp only [step, wsArriveStep]
      cases hr : s.restartPromise with
      | some pp => simpa [goneB, mayEvictB, hr] using hg
      | none =>
          cases hp : s.activeHmrPort with
          | none => exact hg
          | some port => exact hg
  | wsDisconnect c => exact hg
  | advanceSwap fail =>
      cases hr : s.restartPromise with
      | none => rw [show (step s (Act.advanceSwap fail)).1 = s from by rw [step, advanceStep_idle hr]]; exact hg
      | some pp =>
          obtain ⟨p, ph⟩ := pp
          have hph : (match s.restartPromise with
              | some (_, Phase.provisioning old) => old == some g
              | some (_, Phase.preloading old _) => old == some g
              | _ => false) = false := by
            simp only [goneB, mayEvictB, Bool.and_eq_true, Bool.not_eq_true',
              Bool.or_eq_false_iff] at hg
            exact hg.2.2
          rw [hr] at hph
          cases ph with
          | rejected =>
              rw [show (step s (Act.advanceSwap fail)).1 = s from by rw [step, advanceStep_rejected hr]]
              exact hg
          | provisioning old =>
              cases fail with
              | true =>
                  rw [show step s (Act.advanceSwap true) = _ from advanceStep_provision_fail hr]
                  simp [goneB, mayEvictB, hav, hle]
              | false =>
                  rw [show step s (Act.advanceSwap false) = _ from advanceStep_provision_ok hr]
                  simp only [goneB, mayEvictB, Bool.and_eq_true, Bool.not_eq_true',
                    Bool.or_eq_false_iff]
                  have hlt : g ≤ s.serverIdCounter := by simpa using hle
                  refine ⟨by simp; omega, ?_, ?_⟩
                  · simp only [beq_eq_false_iff_ne, ne_eq, Option.some.injEq]
                    omega
                  · exact hph
          | preloading old gnew =>
              cases fail with
              | true =>
                  rw [show step s (Act.advanceSwap true) = _ from advanceStep_preload_fail hr]
                  simp [goneB, mayEvictB, hav, hle]
              | false =>
                  cases old with
                  | none =>
                      rw [show step s (Act.advanceSwap false) = _ from advanceStep_flush_none hr]
                      simp [goneB, mayEvictB, hav, hle]
                  | some o =>
                      rw [show step s (Act.advanceSwap false) = _ from advanceStep_flush_some hr]
                      simp [goneB, mayEvictB, hav, hle]
          | closing o =>
              rw [show step s (Act.advanceSwap fail) = _ from advanceStep_closing hr]
              simp [goneB, mayEvictB, hav, hle]

theorem goneB_after_evict {s : St} {a : Act} {g : Nat} (hinv : invB s = true)
    (hev : evictsNow s a g = true) : goneB (step s a).1 g = true := by
  cases a with
  | trigger => exact absurd hev (by simp [evictsNow])
  | httpArrive r envMjs => exact absurd hev (by simp [evictsNow])
  | wsArrive c => exact absurd hev (by simp [evictsNow])
  | wsDisconnect c => exact absurd hev (by simp [evictsNow])
  | advanceSwap fail =>
      cases fail with
      | true => exact absurd hev (by simp [evictsNow])
      | false =>
          cases hr : s.restartPromise with
          | none => simp [evictsNow, hr] at hev
          | some pp =>
              obtain ⟨p, ph⟩ := pp
              cases ph with
              | rejected => simp [evictsNow, hr] at hev
              | provisioning old => simp [evictsNow, hr] at hev
              | closing o => simp [evictsNow, hr] at hev
              | preloading old gnew =>
                  cases old with
                  | none => simp [evictsNow, hr] at hev
                  | some o =>
                      have ho : o = g := by
                        have := hev
                        simp only [evictsNow, hr] at this
                        simpa using this
                      subst ho
                      simp only [invB, hr, Bool.and_eq_true] at hinv
                      obtain ⟨⟨⟨h1, h2⟩, h3⟩, h4⟩ := hinv
                      simp only [Bool.and_eq_true, decide_eq_true_eq] at h3
                      obtain ⟨⟨⟨hg, havq⟩, hport⟩, holt⟩ := h3
                      have havq' : s.activeVite = some gnew := by simpa using havq
                      rw [show step s (Act.advanceSwap false) = _ from advanceStep_flush_some hr]
                      simp only [goneB, mayEvictB, Bool.and_eq_true, Bool.not_eq_true',
                        Bool.or_eq_false_iff]
                      refine ⟨by simp; omega, ?_, by simp⟩
                      rw [havq']
                      simp only [beq_eq_false_iff_ne, ne_eq, Option.some.injEq]
                      omega

theorem evictsNow_eq_false_of_gone {s : St} {a : Act} {g : Nat}
    (hg : goneB s g = true) : evictsNow s a g = false := by
  cases a with
  | trigger => rfl
  | httpArrive r envMjs => rfl
  | wsArrive c => rfl
  | wsDisconnect c => rfl
  | advanceSwap fail =>
      cases fail with
      | true => rfl
      | false =>
          cases hr : s.restartPromise with
          | none => simp [evictsNow, hr]
          | some pp =>
              obtain ⟨p, ph⟩ := pp
              have hph : (match s.restartPromise with
                  | some (_, Phase.provisioning old) => old == some g
                  | some (_, Phase.preloading old _) => old == some g
                  | _ => false) = false := by
                simp only [goneB, mayEvictB, Bool.and_eq_true, Bool.not_eq_true',
                  Bool.or_eq_false_iff] at hg
                exact hg.2.2
              rw [hr] at hph
              cases ph with
              | rejected => simp [evictsNow, hr]
              | provisioning old => simp [evictsNow, hr]
              | closing o => simp [evictsNow, hr]
              | preloading old gnew =>
                  cases old with
                  | none => simp [evictsNow, hr]
                  | some o =>
                      simp only [evictsNow, hr]
                      simpa using hph

theorem count_evict_run {g : Nat} :
    ∀ (acts : List Act) (s : St), invB s = true →
      ((run s acts).2.count (Ev.cacheEvicted g) ≤ 1 ∧
       (goneB s g = true → (run s acts).2.count (Ev.cacheEvicted g) = 0)) := by
  intro acts
  induction acts with
  | nil => intro s _; simp [run]
  | cons a rest ih =>
      intro s hinv
      have hinv1 : invB (step s a).1 = true := invB_step hinv
      have ihr := ih (step s a).1 hinv1
      have hrun : (run s (a :: rest)).2 = (step s a).2 ++ (run (step s a).1 rest).2 := rfl
      rw [hrun, List.count_append]
      cases hev : evictsNow s a g with
      | false =>
          have hcs : ((step s a).2).count (Ev.cacheEvicted g) = 0 := by
            rw [count_evict_step, hev]; simp
          rw [hcs]
          constructor
          · simpa using ihr.1
          · intro hg
            have := ihr.2 (goneB_step hg)
            simpa using this
      | true =>
          have hcs : ((step s a).2).count (Ev.cacheEvicted g) = 1 := by
            rw [count_evict_step, hev]; simp
          rw [hcs]
          have hrest := ihr.2 (goneB_after_evict hinv hev)
          constructor
          · rw [hrest]
          · intro hg
            exact absurd hev (by rw [evictsNow_eq_false_of_gone hg]; simp)

theorem all_const_true {α : Type} (l : List α) : (l.all fun _ => true) = true := by
  rw [List.all_eq_true]
  intro x _
  rfl

theorem serverIdCounter_restartVite (s : St) :
    (restartVite s).1.serverIdCounter = s.serverIdCounter := by
  cases hr : s.restartPromise with
  | some pp =>
      obtain ⟨p, ph⟩ := pp
      rw [restartVite_inflight hr]
  | none => rw [restartVite_fresh hr]

theorem serverIdCounter_httpArriveStep (s : St) (r : Nat) (envMjs : Bool) :
    (httpArriveStep s r envMjs).1.serverIdCounter = s.serverIdCounter := by
  simp only [httpArriveStep]
  set t := if envMjs && !s.hasTriggeredRestart then
      restartVite { s with hasTriggeredRestart := true }
    else (s, []) with ht
  have htc : t.1.serverIdCounter = s.serverIdCounter := by
    rw [ht]
    split
    · rw [serverIdCounter_restartVite]
    · rfl
  cases hp : t.1.restartPromise with
  | some pp =>
      obtain ⟨p, ph⟩ := pp
      simpa [hp] using htc
  | none =>
      simp only [hp]
      cases ha : t.1.activeVite with
      | some g =>
          simp only [ha]
          split
          · exact htc
          · exact htc
      | none =>
          simp only [ha]
          rw [serverIdCounter_restartVite]
          exact htc

theorem serverIdCounter_step (s : St) (a : Act) :
    (step s a).1.serverIdCounter =
      s.serverIdCounter + (if provisionAdvance s a = true then 1 else 0) := by
  cases a with
  | trigger =>
      have : provisionAdvance s Act.trigger = false := rfl
      rw [this]
      simp [serverIdCounter_restartVite, step]
  | httpArrive r envMjs =>
      have : provisionAdvance s (Act.httpArrive r envMjs) = false := rfl
      rw [this]
      simp [serverIdCounter_httpArriveStep, step]
  | wsArrive c =>
      have : provisionAdvance s (Act.wsArrive c) = false := rfl
      rw [this]
      simp only [step, wsArriveStep, if_neg (by simp : ¬(false = true))]
      cases hr : s.restartPromise with
      | some pp => simp
      | none => cases hp : s.activeHmrPort <;> simp
  | wsDisconnect c =>
      have : provisionAdvance s (Act.wsDisconnect c) = false := rfl
      rw [this]
      simp [step]
  | advanceSwap fail =>
      cases hr : s.restartPromise with
      | none =>
          rw [show step s (Act.advanceSwap fail) = (s, []) from advanceStep_idle hr]
          simp [provisionAdvance, hr]
      | some pp =>
          obtain ⟨p, ph⟩ := pp
          cases ph with
          | rejected =>
              rw [show step s (Act.advanceSwap fail) = (s, []) from advanceStep_rejected hr]
              simp [provisionAdvance, hr]
          | provisioning old =>
              cases fail with
              | true =>
                  rw [show step s (Act.advanceSwap true) = _ from advanceStep_provision_fail hr]
                  simp [provisionAdvance, hr]
              | false =>
                  rw [show step s (Act.advanceSwap false) = _ from advanceStep_provision_ok hr]
                  simp [provisionAdvance, hr]
          | preloading old gnew =>
              cases fail with
              | true =>
                  rw [show step s (Act.advanceSwap true) = _ from advanceStep_preload_fail hr]
                  simp [provisionAdvance, hr]
              | false =>
                  cases old with
                  | none =>
                      rw [show step s (Act.advanceSwap false) = _ from advanceStep_flush_none hr]
                      simp [provisionAdvance, hr]
                  | some o =>
                      rw [show step s (Act.advanceSwap false) = _ from advanceStep_flush_some hr]
                      simp [provisionAdvance, hr]
          | closing o =>
              rw [show step s (Act.advanceSwap fail) = _ from advanceStep_closing hr]
              simp [provisionAdvance, hr]

theorem run_triggers_inflight {s : St} {p : Nat} {ph : Phase}
    (hr : s.restartPromise = some (p, ph)) :
    ∀ acts : List Act, (∀ a ∈ acts, a = Act.trigger) →
      run s acts = (s, acts.map fun _ => Ev.triggerReturned p) := by
  intro acts
  induction acts with
  | nil => intro _; rfl
  | cons a rest ih =>
      intro hall
      have ha : a = Act.trigger := hall a (List.mem_cons_self a rest)
      subst ha
      have hstep : step s Act.trigger = (s, [Ev.triggerReturned p]) :=
        restartVite_inflight hr
      have hrest := ih (fun a hmem => hall a (List.mem_cons_of_mem _ hmem))
      show (let t := step s Act.trigger
            let u := run t.1 rest
            (u.1, t.2 ++ u.2)) = _
      rw [hstep]
      simp only [hrest, List.map_cons, List.singleton_append]

theorem lookup_append_of_none {cache : List (Nat × Nat)} {g v : Nat}
    (h : cache.lookup g = none) : (cache ++ [(g, v)]).lookup g = some v := by
  induction cache with
  | nil => simp [List.lookup]
  | cons kv cache ih =>
      obtain ⟨k, b⟩ := kv
      by_cases hk : g = k
      · subst hk; simp [List.lookup] at h
      · have hk' : (g == k) = false := by simp [hk]
        simp only [List.cons_append, List.lookup, hk'] at h ⊢
        exact ih h

theorem all_not_map {α : Type} {P : Ev → Bool} {f : α → Ev} (l : List α)
    (h : ∀ x, P (f x) = false) : ((l.map f).all fun e => !(P e)) = true := by
  rw [List.all_eq_true]
  intro e he
  rw [List.mem_map] at he
  obtain ⟨x, _, rfl⟩ := he
  simp [h x]

theorem filter_resume_mapResumeHttp (l : List Hold) :
    (l.map fun h => Ev.resumeHttp h.rid).filter isResumeEv =
      l.map fun h => Ev.resumeHttp h.rid := by
  induction l with
  | nil => rfl
  | cons x l ih => simp [isResumeEv, ih]

theorem filter_resume_mapResumeWs (l : List Nat) :
    (l.map Ev.resumeWs).filter isResumeEv = l.map Ev.resumeWs := by
  induction l with
  | nil => rfl
  | cons x l ih => simp [isResumeEv, ih]

theorem filter_resume_mapRunHttp (l : List Hold) (b : Option Nat) :
    (l.map fun h => Ev.runHttp h.rid b).filter isResumeEv = [] := by
  induction l with
  | nil => rfl
  | cons x l ih => simp [isResumeEv, ih]

theorem filter_resume_mapConnect (l : List Nat) (g : Nat) :
    (l.map fun c => Ev.connectAttempt c g).filter isResumeEv = [] := by
  induction l with
  | nil => rfl
  | cons x l ih => simp [isResumeEv, ih]

theorem filter_resume_mapRunWait (l : List Nat) (b : Option Nat) :
    (l.map fun r => Ev.runHttp r b).filter isResumeEv = [] := by
  induction l with
  | nil => rfl
  | cons x l ih => simp [isResumeEv, ih]

end HoldDrain

open HoldDrain

/-- C2: while a swap is in flight (`restartPromise` non-null, including a
kept rejected promise), every `restartVite` call returns that same existing
promise and leaves the state unchanged, so no generation is created by it;
any sequence of such concurrent trigger calls therefore changes nothing,
and `serverIdCounter` grows by exactly one precisely at the single successful
provisioning step of each distinct swap and at no other step. -/
theorem claim_C2_theorem :
    (∀ (s : St) (p : Nat) (ph : Phase), s.restartPromise = some (p, ph) →
        step s Act.trigger = (s, [Ev.triggerReturned p])) ∧
    (∀ (s : St) (p : Nat) (ph : Phase) (acts : List Act),
        s.restartPromise = some (p, ph) → (∀ a ∈ acts, a = Act.trigger) →
        run s acts = (s, acts.map fun _ => Ev.triggerReturned p)) ∧
    (∀ (s : St) (a : Act),
        (step s a).1.serverIdCounter =
          s.serverIdCounter + (if provisionAdvance s a = true then 1 else 0)) := by
  refine ⟨?_, ?_, ?_⟩
  · intro s p ph hr
    exact restartVite_inflight hr
  · intro s p ph acts hr hall
    exact run_triggers_inflight hr acts hall
  · intro s a
    exact serverIdCounter_step s a

/-- C2 witness: a second trigger issued while the first swap is provisioning
returns the first swap's promise and changes nothing. -/
theorem claim_C2_witness :
    step (run startSt [Act.trigger]).1 Act.trigger =
      ((run startSt [Act.trigger]).1, [Ev.triggerReturned 1]) :=
  claim_C2_theorem.1 (run startSt [Act.trigger]).1 1 (Phase.provisioning none) (by decide)

/-- C7: in the waterfall variant's Nth-request scenario (generation #1
active, 39 ordinary requests arrive in order, the 20th triggers the restart
and requests 21–39 arrive before it resolves), requests 1–19 are bound to
generation #1 and requests 20–39 to generation #2. -/
theorem claim_C7_theorem :
    (Waterfall.wrun Waterfall.startWSt Waterfall.scenario).bindings =
      ((List.range' 1 19).map fun p => (p, 1))
        ++ ((List.range' 20 20).map fun p => (p, 2)) ∧
    (Waterfall.wrun Waterfall.startWSt Waterfall.scenario).serverIdCounter = 2 := by
  decide

/-- C10: an upgrade connection arriving while no restart is in flight and no
generation has ever become active (`activeHmrPort` is null) has its inbound
socket destroyed, and no outbound connect is attempted for it. -/
theorem claim_C10_theorem :
    ∀ (s : St) (c : Nat), s.restartPromise = none → s.activeHmrPort = none →
      step s (Act.wsArrive c) = (s, [Ev.socketDestroyed c]) ∧
      ∀ port : Nat, Ev.connectAttempt c port ∉ (step s (Act.wsArrive c)).2 := by
  intro s c hr hp
  have hstep : step s (Act.wsArrive c) = (s, [Ev.socketDestroyed c]) :=
    wsArriveStep_noPort hr hp
  refine ⟨hstep, ?_⟩
  intro port
  rw [hstep]
  simp

/-- C10 witness: at process start (before any request or swap), an upgrade
connection is destroyed with no outbound connect. -/
theorem claim_C10_witness :
    step startSt (Act.wsArrive 0) = (startSt, [Ev.socketDestroyed 0]) ∧
    ∀ port : Nat, Ev.connectAttempt 0 port ∉ (step startSt (Act.wsArrive 0)).2 :=
  claim_C10_theorem startSt 0 rfl rfl

/-- C9: when a swap's drain runs (the preload resolution step), the resume
events of the step are exactly one `resolve()` per held continuation, in FIFO
enqueue order, all HTTP holds before all connection holds; both queues are
replaced by empty queues in the same synchronous segment, and every queue
replacement precedes every released continuation body actually running. -/
theorem claim_C9_theorem :
    ∀ (s : St) (p : Nat) (old : Option Nat) (g : Nat),
      s.restartPromise = some (p, Phase.preloading old g) →
      ((step s (Act.advanceSwap false)).2.filter isResumeEv =
          (s.pendingHttpRequests.map fun h => Ev.resumeHttp h.rid)
            ++ s.pendingWsConnections.map Ev.resumeWs) ∧
      (step s (Act.advanceSwap false)).1.pendingHttpRequests = [] ∧
      (step s (Act.advanceSwap false)).1.pendingWsConnections = [] ∧
      eachBefore isQueueClearedEv isRunEv (step s (Act.advanceSwap false)).2 = true := by
  intro s p old g hr
  cases old with
  | some o =>
      rw [show step s (Act.advanceSwap false) = _ from advanceStep_flush_some hr]
      refine ⟨?_, rfl, rfl, ?_⟩
      · simp only [List.filter_append, filter_resume_mapResumeHttp,
          filter_resume_mapResumeWs, filter_resume_mapRunHttp, filter_resume_mapConnect]
        simp [isResumeEv]
      · simp only [List.append_assoc]
        refine eachBefore_append_left (by simp [isRunEv]) ?_
        refine eachBefore_append_left (all_not_map _ fun x => rfl) ?_
        refine eachBefore_append_left (by simp [isRunEv]) ?_
        refine eachBefore_append_left (all_not_map _ fun x => rfl) ?_
        refine eachBefore_append_left (by simp [isRunEv]) ?_
        refine eachBefore_of_all_not_p ?_
        rw [List.all_append]
        rw [all_not_map _ (fun x => rfl), all_not_map _ (fun x => rfl)]
        rfl
  | none =>
      rw [show step s (Act.advanceSwap false) = _ from advanceStep_flush_none hr]
      refine ⟨?_, rfl, rfl, ?_⟩
      · simp only [List.filter_append, filter_resume_mapResumeHttp,
          filter_resume_mapResumeWs, filter_resume_mapRunHttp, filter_resume_mapConnect,
          filter_resume_mapRunWait]
        simp [isResumeEv]
      · simp only [List.append_assoc]
        refine eachBefore_append_left (by simp [isRunEv]) ?_
        refine eachBefore_append_left (all_not_map _ fun x => rfl) ?_
        refine eachBefore_append_left (by simp [isRunEv]) ?_
        refine eachBefore_append_left (all_not_map _ fun x => rfl) ?_
        refine eachBefore_append_left (by simp [isRunEv]) ?_
        refine eachBefore_of_all_not_p ?_
        rw [List.all_append, List.all_append]
        rw [all_not_map _ (fun x => rfl), all_not_map _ (fun x => rfl),
          all_not_map _ (fun x => rfl)]
        rfl

/-- C9 witness: the drain of a swap with one held request and one held
connection: the resume events are exactly the two resolves in order, the
queues are empty afterwards, and the queue clears precede the continuation
bodies. -/
theorem claim_C9_witness :
    ((step (run startSt [Act.trigger, Act.httpArrive 4 false, Act.wsArrive 5,
        Act.advanceSwap false]).1 (Act.advanceSwap false)).2.filter isResumeEv =
      ((run startSt [Act.trigger, Act.httpArrive 4 false, Act.wsArrive 5,
        Act.advanceSwap false]).1.pendingHttpRequests.map fun h => Ev.resumeHttp h.rid)
        ++ (run startSt [Act.trigger, Act.httpArrive 4 false, Act.wsArrive 5,
             Act.advanceSwap false]).1.pendingWsConnections.map Ev.resumeWs) ∧
    (step (run startSt [Act.trigger, Act.httpArrive 4 false, Act.wsArrive 5,
        Act.advanceSwap false]).1 (Act.advanceSwap false)).1.pendingHttpRequests = [] ∧
    (step (run startSt [Act.trigger, Act.httpArrive 4 false, Act.wsArrive 5,
        Act.advanceSwap false]).1 (Act.advanceSwap false)).1.pendingWsConnections = [] ∧
    eachBefore isQueueClearedEv isRunEv
      (step (run startSt [Act.trigger, Act.httpArrive 4 false, Act.wsArrive 5,
        Act.advanceSwap false]).1 (Act.advanceSwap false)).2 = true :=
  claim_C9_theorem (run startSt [Act.trigger, Act.httpArrive 4 false, Act.wsArrive 5,
    Act.advanceSwap false]).1 1 none 1 (by decide)

/-- Trace of a schedule with three swaps in which an HTTP request arrives
while swap 2 is awaiting `oldServer.close()` (generation 1's teardown): the
request is held during swap 2 but is only resumed by swap 3's drain. -/
def c5Trace : List Ev :=
  (run startSt [Act.trigger, Act.advanceSwap false, Act.advanceSwap false,
    Act.trigger, Act.advanceSwap false, Act.advanceSwap false, Act.httpArrive 9 false,
    Act.advanceSwap false, Act.trigger, Act.advanceSwap false, Act.advanceSwap false,
    Act.advanceSwap false]).2

/-- C5 counterexample: request 9 is held during swap 2 (its hold event lies
between `swapStarted 2` and `promiseCleared 2`), yet its resume happens only
after the teardown of generation 1 (`closeInvoked 1`) was initiated — the
claim that every hold taken during swap n is resumed before generation n−1's
teardown starts is false for holds taken while the old server is closing. -/
theorem claim_C5_counterexample :
    Ev.httpHeld 9 (some 2) false ∈ c5Trace ∧
    Ev.resumeHttp 9 ∈ c5Trace ∧
    c5Trace.indexOf (Ev.swapStarted 2 (some 1)) <
      c5Trace.indexOf (Ev.httpHeld 9 (some 2) false) ∧
    c5Trace.indexOf (Ev.httpHeld 9 (some 2) false) <
      c5Trace.indexOf (Ev.promiseCleared 2) ∧
    c5Trace.indexOf (Ev.closeInvoked 1) < c5Trace.indexOf (Ev.resumeHttp 9) := by
  decide

/-- C5 amended: every request and connection present in the hold queues when
swap n's drain runs is resumed in that same step, strictly after generation
n's artifact is loaded and strictly before teardown of generation n−1
(`oldServer.close()`) is initiated, and both queues are empty from that step
on; but a unit held after the drain — while the old server is closing — is
not resumed by swap n and waits for a later swap. -/
theorem claim_C5_amended :
    ∀ (s : St) (p : Nat) (o g : Nat),
      s.restartPromise = some (p, Phase.preloading (some o) g) →
      (∀ h ∈ s.pendingHttpRequests,
          Ev.resumeHttp h.rid ∈ (step s (Act.advanceSwap false)).2) ∧
      (∀ c ∈ s.pendingWsConnections,
          Ev.resumeWs c ∈ (step s (Act.advanceSwap false)).2) ∧
      eachBefore isArtifactLoadedEv isResumeEv (step s (Act.advanceSwap false)).2 = true ∧
      eachBefore isResumeEv isCloseInvokedEv (step s (Act.advanceSwap false)).2 = true ∧
      (step s (Act.advanceSwap false)).1.pendingHttpRequests = [] ∧
      (step s (Act.advanceSwap false)).1.pendingWsConnections = [] ∧
      (∀ (r : Nat),
        (step (step s (Act.advanceSwap false)).1 (Act.httpArrive r false)).1.pendingHttpRequests
          = [⟨r, (step s (Act.advanceSwap false)).1.activeVite, false⟩] ∧
        (step (step s (Act.advanceSwap false)).1 (Act.httpArrive r false)).2
          = [Ev.httpHeld r (step s (Act.advanceSwap false)).1.activeVite false]) := by
  intro s p o g hr
  have hstep := advanceStep_flush_some hr
  refine ⟨?_, ?_, ?_, ?_, ?_, ?_, ?_⟩
  · intro h hh
    rw [show step s (Act.advanceSwap false) = _ from hstep]
    have hm : Ev.resumeHttp h.rid ∈ s.pendingHttpRequests.map fun x => Ev.resumeHttp x.rid :=
      List.mem_map_of_mem _ hh
    simp only [List.mem_append]
    tauto
  · intro c hc
    rw [show step s (Act.advanceSwap false) = _ from hstep]
    have hm : Ev.resumeWs c ∈ s.pendingWsConnections.map Ev.resumeWs :=
      List.mem_map_of_mem _ hc
    simp only [List.mem_append]
    tauto
  · rw [show step s (Act.advanceSwap false) = _ from hstep]
    simp only [List.append_assoc]
    refine eachBefore_append_left (by simp [isResumeEv]) ?_
    refine eachBefore_of_all_not_p ?_
    simp only [List.all_append]
    rw [all_not_map _ (fun x => rfl), all_not_map _ (fun x => rfl),
      all_not_map _ (fun x => rfl), all_not_map _ (fun x => rfl)]
    simp [isArtifactLoadedEv]
  · rw [show step s (Act.advanceSwap false) = _ from hstep]
    simp only [List.append_assoc]
    refine eachBefore_append_left (by simp [isCloseInvokedEv]) ?_
    refine eachBefore_append_left (all_not_map _ fun x => rfl) ?_
    refine eachBefore_append_left (by simp [isCloseInvokedEv]) ?_
    refine eachBefore_append_left (all_not_map _ fun x => rfl) ?_
    refine eachBefore_of_all_not_p ?_
    simp only [List.all_append]
    rw [all_not_map _ (fun x => rfl), all_not_map _ (fun x => rfl)]
    simp [isResumeEv]
  · rw [show step s (Act.advanceSwap false) = _ from hstep]
  · rw [show step s (Act.advanceSwap false) = _ from hstep]
  · intro r
    have hr2 : (step s (Act.advanceSwap false)).1.restartPromise =
        some (p, Phase.closing o) := by
      rw [show step s (Act.advanceSwap false) = _ from hstep]
    have hq : (step s (Act.advanceSwap false)).1.pendingHttpRequests = [] := by
      rw [show step s (Act.advanceSwap false) = _ from hstep]
    have harr := httpArriveStep_held (s := (step s (Act.advanceSwap false)).1)
      (r := r) hr2
    constructor
    · show (httpArriveStep (step s (Act.advanceSwap false)).1 r false).1.pendingHttpRequests = _
      rw [harr]
      simp [hq]
    · show (httpArriveStep (step s (Act.advanceSwap false)).1 r false).2 = _
      rw [harr]

/-- State for the C5 witness: swap 2 is at its drain point with one held
request and one held connection, generation 1 being the old server. -/
def c5WitnessSt : St :=
  (run startSt [Act.trigger, Act.advanceSwap false, Act.advanceSwap false,
    Act.trigger, Act.httpArrive 4 false, Act.wsArrive 5, Act.advanceSwap false]).1

/-- C5 witness: at the concrete drain of swap 2 both held units are resumed,
after the artifact load and before the close of generation 1 is invoked. -/
theorem claim_C5_witness :
    Ev.resumeHttp 4 ∈ (step c5WitnessSt (Act.advanceSwap false)).2 ∧
    Ev.resumeWs 5 ∈ (step c5WitnessSt (Act.advanceSwap false)).2 ∧
    eachBefore isArtifactLoadedEv isResumeEv (step c5WitnessSt (Act.advanceSwap false)).2 = true ∧
    eachBefore isResumeEv isCloseInvokedEv (step c5WitnessSt (Act.advanceSwap false)).2 = true :=
  ⟨(claim_C5_amended c5WitnessSt 2 1 2 (by decide)).1 ⟨4, some 1, true⟩ (by decide),
   (claim_C5_amended c5WitnessSt 2 1 2 (by decide)).2.1 5 (by decide),
   (claim_C5_amended c5WitnessSt 2 1 2 (by decide)).2.2.1,
   (claim_C5_amended c5WitnessSt 2 1 2 (by decide)).2.2.2.1⟩

/-- Trace of the first swap with a request arriving while the new server is
already installed (`activeVite = newServer`) but its build preload is still
pending: the request is held with generation 1 already active, and on resume
it is bound to that same generation 1. -/
def c3Trace : List Ev :=
  (run startSt [Act.trigger, Act.advanceSwap false, Act.httpArrive 7 false,
    Act.advanceSwap false]).2

/-- C3 counterexample: request 7 is held during the swap while `activeVite`
already points at generation 1 (its hold event records `some 1`), and after
resumption it is bound to that very generation 1 — so a held request CAN be
bound to the generation that was active when its hold began, refuting the
claim for holds taken in the window between the `activeVite` swap and the
drain. -/
theorem claim_C3_counterexample :
    Ev.httpHeld 7 (some 1) false ∈ c3Trace ∧
    Ev.runHttp 7 (some 1) ∈ c3Trace ∧
    c3Trace.indexOf (Ev.httpHeld 7 (some 1) false) <
      c3Trace.indexOf (Ev.runHttp 7 (some 1)) := by
  decide

/-- C3 amended: the binding is read at resume time: every request in the hold
queue at drain time is bound to the generation `g` the swap installed; a
request held before the swap installed `g` (while the body was still
provisioning) recorded the pre-swap `activeVite` as the generation active at
its hold, and for such requests the bound generation always differs from the
one active when the hold began. -/
theorem claim_C3_amended :
    (∀ (s : St) (p : Nat) (old : Option Nat) (r : Nat),
        s.restartPromise = some (p, Phase.provisioning old) →
        step s (Act.httpArrive r false) =
          ({ s with pendingHttpRequests :=
               s.pendingHttpRequests ++ [⟨r, s.activeVite, true⟩] },
           [Ev.httpHeld r s.activeVite true])) ∧
    (∀ (s : St) (p : Nat) (old : Option Nat) (g : Nat),
        invB s = true → s.restartPromise = some (p, Phase.preloading old g) →
        ∀ h ∈ s.pendingHttpRequests,
          Ev.runHttp h.rid (some g) ∈ (step s (Act.advanceSwap false)).2 ∧
          (h.preInstall = true → h.activeAtHold ≠ some g)) := by
  constructor
  · intro s p old r hr
    exact httpArriveStep_held hr
  · intro s p old g hinv hr h hmem
    constructor
    · have hm : Ev.runHttp h.rid (some g) ∈
          s.pendingHttpRequests.map fun x => Ev.runHttp x.rid (some g) :=
        List.mem_map_of_mem _ hmem
      cases old with
      | some o =>
          rw [show step s (Act.advanceSwap false) = _ from advanceStep_flush_some hr]
          simp only [List.mem_append]
          tauto
      | none =>
          rw [show step s (Act.advanceSwap false) = _ from advanceStep_flush_none hr]
          simp only [List.mem_append]
          tauto
    · intro hpre
      simp only [invB, hr, Bool.and_eq_true] at hinv
      obtain ⟨⟨⟨h1, h2⟩, h3⟩, h4⟩ := hinv
      rw [List.all_eq_true] at h4
      have hh' := h4 h hmem
      simp only [holdOk, hr, hpre, Bool.not_true, Bool.false_or] at hh'
      cases hax : h.activeAtHold with
      | none => simp
      | some x =>
          rw [hax] at hh'
          simp only [decide_eq_true_eq] at hh'
          simp only [ne_eq, Option.some.injEq]
          omega

/-- State for the C3 witness: the first swap is preloading with one request
held from the provisioning window (no generation was active at its hold). -/
def c3WitnessSt : St :=
  (run startSt [Act.trigger, Act.httpArrive 4 false, Act.advanceSwap false]).1

/-- C3 witness: the concrete pre-install hold of request 4 is resumed bound
to generation 1, which differs from the generation active at its hold. -/
theorem claim_C3_witness :
    Ev.runHttp 4 (some 1) ∈ (step c3WitnessSt (Act.advanceSwap false)).2 ∧
    ((⟨4, none, true⟩ : Hold).preInstall = true →
      (⟨4, none, true⟩ : Hold).activeAtHold ≠ some 1) :=
  claim_C3_amended.2 c3WitnessSt 1 none 1 (by decide) (by decide)
    ⟨4, none, true⟩ (by decide)

/-- Trace of the first swap with a request held during preloading, showing
the order of `activeVite` swap, artifact load and hold release. -/
def c4Trace : List Ev :=
  (run startSt [Act.trigger, Act.advanceSwap false, Act.httpArrive 3 false,
    Act.advanceSwap false]).2

/-- C4 counterexample: in a concrete swap, `activeVite` is swapped to
generation 1 strictly before generation 1's artifact is loaded and strictly
before the held request is released to it — refuting the claim that the new
generation becomes the active one only after preload and release. -/
theorem claim_C4_counterexample :
    Ev.activeSwapped 1 ∈ c4Trace ∧
    Ev.artifactLoaded 1 ∈ c4Trace ∧
    Ev.resumeHttp 3 ∈ c4Trace ∧
    c4Trace.indexOf (Ev.activeSwapped 1) < c4Trace.indexOf (Ev.artifactLoaded 1) ∧
    c4Trace.indexOf (Ev.activeSwapped 1) < c4Trace.indexOf (Ev.resumeHttp 3) := by
  decide

/-- C4 amended: the provisioning step installs the new generation — swapping
`activeVite` to it — while its artifact is not yet loaded (not in
`serverBuildCache`) and before any held unit is released (that step releases
nothing); held requests and connections are released only later, in the drain
step, and there only after the artifact-loaded event. -/
theorem claim_C4_amended :
    (∀ (s : St) (p : Nat) (old : Option Nat), invB s = true →
        s.restartPromise = some (p, Phase.provisioning old) →
        (step s (Act.advanceSwap false)).1.activeVite = some (s.serverIdCounter + 1) ∧
        (s.serverIdCounter + 1) ∉ (step s (Act.advanceSwap false)).1.serverBuildCache ∧
        ((step s (Act.advanceSwap false)).2.all fun e => !(isResumeEv e)) = true) ∧
    (∀ (s : St) (p : Nat) (old : Option Nat) (g : Nat),
        s.restartPromise = some (p, Phase.preloading old g) →
        eachBefore isArtifactLoadedEv isResumeEv (step s (Act.advanceSwap false)).2 = true) := by
  constructor
  · intro s p old hinv hr
    rw [show step s (Act.advanceSwap false) = _ from advanceStep_provision_ok hr]
    refine ⟨rfl, ?_, by simp [isResumeEv]⟩
    intro hmem
    simp only [invB, hr, Bool.and_eq_true] at hinv
    obtain ⟨⟨⟨h1, h2⟩, h3⟩, h4⟩ := hinv
    rw [List.all_eq_true] at h2
    have := h2 _ hmem
    simp only [decide_eq_true_eq] at this
    omega
  · intro s p old g hr
    cases old with
    | some o =>
        rw [show step s (Act.advanceSwap false) = _ from advanceStep_flush_some hr]
        simp only [List.append_assoc]
        refine eachBefore_append_left (by simp [isResumeEv]) ?_
        refine eachBefore_of_all_not_p ?_
        simp only [List.all_append]
        rw [all_not_map _ (fun x => rfl), all_not_map _ (fun x => rfl),
          all_not_map _ (fun x => rfl), all_not_map _ (fun x => rfl)]
        simp [isArtifactLoadedEv]
    | none =>
        rw [show step s (Act.advanceSwap false) = _ from advanceStep_flush_none hr]
        simp only [List.append_assoc]
        refine eachBefore_append_left (by simp [isResumeEv]) ?_
        refine eachBefore_of_all_not_p ?_
        simp only [List.all_append]
        rw [all_not_map _ (fun x => rfl), all_not_map _ (fun x => rfl),
          all_not_map _ (fun x => rfl), all_not_map _ (fun x => rfl),
          all_not_map _ (fun x => rfl)]
        simp [isArtifactLoadedEv]

/-- State for the C4 witness: swap 2 is provisioning while generation 1 is
active and cached. -/
def c4WitnessSt : St :=
  (run startSt [Act.trigger, Act.advanceSwap false, Act.advanceSwap false,
    Act.trigger]).1

/-- C4 witness: resolving the provisioning of swap 2 installs generation 2 as
`activeVite` while generation 2's artifact is not yet cached and no hold was
released by that step. -/
theorem claim_C4_witness :
    (step c4WitnessSt (Act.advanceSwap false)).1.activeVite = some 2 ∧
    2 ∉ (step c4WitnessSt (Act.advanceSwap false)).1.serverBuildCache ∧
    ((step c4WitnessSt (Act.advanceSwap false)).2.all fun e => !(isResumeEv e)) = true :=
  claim_C4_amended.1 c4WitnessSt 2 (some 1) (by decide) (by decide)

/-- C1 counterexample: after a provisioning failure the swap promise is kept
rejected and a subsequent `restartVite` call merely returns that same
rejected promise — the state is unchanged and no fresh swap starts, so a
failed swap is NOT retryable; moreover, when artifact loading (rather than
provisioning) fails, `activeVite` has already been swapped to the new
generation (from `some 1` before the swap to `some 2` after the failure), so
the active reference is not left unchanged by every failed swap. -/
theorem claim_C1_counterexample :
    (run startSt [Act.trigger, Act.advanceSwap true, Act.trigger]).1 =
      (run startSt [Act.trigger, Act.advanceSwap true]).1 ∧
    (run startSt [Act.trigger, Act.advanceSwap true, Act.trigger]).2 =
      [Ev.swapStarted 1 none, Ev.swapRejected 1, Ev.triggerReturned 1] ∧
    (run startSt [Act.trigger, Act.advanceSwap true, Act.trigger]).1.restartPromise =
      some (1, Phase.rejected) ∧
    (run startSt [Act.trigger, Act.advanceSwap false, Act.advanceSwap false]).1.activeVite =
      some 1 ∧
    (run startSt [Act.trigger, Act.advanceSwap false, Act.advanceSwap false,
       Act.trigger, Act.advanceSwap false, Act.advanceSwap true]).1.activeVite = some 2 := by
  decide

/-- C1 amended: a provisioning failure leaves `activeVite` unchanged and the
rejection propagates to the swap promise; an artifact-load failure strikes
after `activeVite` was already swapped, so the failed swap leaves the NEW
generation (distinct from the captured old one) as the active reference; in
both cases `restartPromise` keeps the rejected promise, so every subsequent
`restartVite` call returns that same rejected promise without starting a
fresh swap. -/
theorem claim_C1_amended :
    (∀ (s : St) (p : Nat) (old : Option Nat),
        s.restartPromise = some (p, Phase.provisioning old) →
        (step s (Act.advanceSwap true)).1.activeVite = s.activeVite ∧
        (step s (Act.advanceSwap true)).1.restartPromise = some (p, Phase.rejected) ∧
        (step s (Act.advanceSwap true)).2 = [Ev.swapRejected p]) ∧
    (∀ (s : St) (p : Nat) (old : Option Nat) (g : Nat), invB s = true →
        s.restartPromise = some (p, Phase.preloading old g) →
        (step s (Act.advanceSwap true)).1.activeVite = some g ∧
        old ≠ some g ∧
        (step s (Act.advanceSwap true)).1.restartPromise = some (p, Phase.rejected) ∧
        (step s (Act.advanceSwap true)).2 = [Ev.swapRejected p]) ∧
    (∀ (s : St) (p : Nat), s.restartPromise = some (p, Phase.rejected) →
        step s Act.trigger = (s, [Ev.triggerReturned p])) := by
  refine ⟨?_, ?_, ?_⟩
  · intro s p old hr
    rw [show step s (Act.advanceSwap true) = _ from advanceStep_provision_fail hr]
    exact ⟨rfl, rfl, rfl⟩
  · intro s p old g hinv hr
    simp only [invB, hr, Bool.and_eq_true] at hinv
    obtain ⟨⟨⟨h1, h2⟩, h3⟩, h4⟩ := hinv
    simp only [Bool.and_eq_true, decide_eq_true_eq] at h3
    obtain ⟨⟨⟨hg, hav⟩, hport⟩, holdg⟩ := h3
    have hav' : s.activeVite = some g := by simpa using hav
    rw [show step s (Act.advanceSwap true) = _ from advanceStep_preload_fail hr]
    refine ⟨hav', ?_, rfl, rfl⟩
    cases hO : old with
    | none => simp
    | some o =>
        rw [hO] at holdg
        simp only [decide_eq_true_eq] at holdg
        simp only [ne_eq, Option.some.injEq]
        omega
  · intro s p hr
    exact restartVite_inflight hr

/-- State for the C1 witness: swap 2 is preloading, generation 1 was active
before the swap. -/
def c1WitnessSt : St :=
  (run startSt [Act.trigger, Act.advanceSwap false, Act.advanceSwap false,
    Act.trigger, Act.advanceSwap false]).1

/-- C1 witness: a concrete artifact-load failure of swap 2 leaves generation
2 (not the pre-swap generation 1) active and keeps the rejected promise. -/
theorem claim_C1_witness :
    (step c1WitnessSt (Act.advanceSwap true)).1.activeVite = some 2 ∧
    some 1 ≠ some 2 ∧
    (step c1WitnessSt (Act.advanceSwap true)).1.restartPromise =
      some (2, Phase.rejected) ∧
    (step c1WitnessSt (Act.advanceSwap true)).2 = [Ev.swapRejected 2] :=
  claim_C1_amended.2.1 c1WitnessSt 2 (some 1) 2 (by decide) (by decide)

/-- Trace of a swap during which the held upgrade connection's client
disconnects before the drain. -/
def c6Trace : List Ev :=
  (run startSt [Act.trigger, Act.wsArrive 5, Act.wsDisconnect 5,
    Act.advanceSwap false, Act.advanceSwap false]).2

/-- C6 counterexample: connection 5 is held, its client disconnects before it
is resumed, yet it stays in `pendingWsConnections` and the drain still
resumes it and attempts an outbound connect to the new generation's sideband
port — refuting the claim that a disconnected held connection is removed
without a proxy attempt. -/
theorem claim_C6_counterexample :
    Ev.wsHeld 5 ∈ c6Trace ∧
    Ev.wsClientDisconnected 5 ∈ c6Trace ∧
    c6Trace.indexOf (Ev.wsClientDisconnected 5) < c6Trace.indexOf (Ev.resumeWs 5) ∧
    Ev.connectAttempt 5 1 ∈ c6Trace ∧
    (run startSt [Act.trigger, Act.wsArrive 5, Act.wsDisconnect 5]).1.pendingWsConnections
      = [5] := by
  decide

/-- C6 amended: the upgrade handler installs no disconnect handling while a
connection is held — a client disconnect changes no coordinator state at all
(in particular the hold stays queued) — and the drain resumes every queued
connection and attempts an outbound connect to the installed generation's
port for each of them, disconnected or not. -/
theorem claim_C6_amended :
    (∀ (s : St) (c : Nat),
        step s (Act.wsDisconnect c) = (s, [Ev.wsClientDisconnected c])) ∧
    (∀ (s : St) (p : Nat) (old : Option Nat) (g c : Nat),
        s.restartPromise = some (p, Phase.preloading old g) →
        c ∈ s.pendingWsConnections →
        Ev.connectAttempt c g ∈ (step s (Act.advanceSwap false)).2) := by
  constructor
  · intro s c
    rfl
  · intro s p old g c hr hc
    have hm : Ev.connectAttempt c g ∈
        s.pendingWsConnections.map fun x => Ev.connectAttempt x g :=
      List.mem_map_of_mem _ hc
    cases old with
    | some o =>
        rw [show step s (Act.advanceSwap false) = _ from advanceStep_flush_some hr]
        simp only [List.mem_append]
        tauto
    | none =>
        rw [show step s (Act.advanceSwap false) = _ from advanceStep_flush_none hr]
        simp only [List.mem_append]
        tauto

/-- State for the C6 witness: the first swap is preloading with connection 5
held and already disconnected. -/
def c6WitnessSt : St :=
  (run startSt [Act.trigger, Act.wsArrive 5, Act.wsDisconnect 5,
    Act.advanceSwap false]).1

/-- C6 witness: the drain attempts an outbound connect for the concrete held
(and disconnected) connection 5. -/
theorem claim_C6_witness :
    Ev.connectAttempt 5 1 ∈ (step c6WitnessSt (Act.advanceSwap false)).2 :=
  claim_C6_amended.2 c6WitnessSt 1 none 1 5 (by decide) (by decide)

/-- C8: `getServerBuild` returns the cached artifact when present (no load),
otherwise invokes the load exactly once, stores the result keyed by the
generation and returns it; the coordinator's drain removes the old
generation's entry (exactly one eviction event, in the same step that invokes
the old server's close), and over any whole schedule each generation's entry
is evicted at most once. -/
theorem claim_C8_theorem :
    (∀ (load : Nat → Nat) (cache : List (Nat × Nat)) (g b : Nat),
        cache.lookup g = some b → getServerBuild load cache g = (cache, b, 0)) ∧
    (∀ (load : Nat → Nat) (cache : List (Nat × Nat)) (g : Nat),
        cache.lookup g = none →
        getServerBuild load cache g = (cache ++ [(g, load g)], load g, 1) ∧
        (cache ++ [(g, load g)]).lookup g = some (load g)) ∧
    (∀ (s : St) (p o g : Nat),
        s.restartPromise = some (p, Phase.preloading (some o) g) →
        o ∉ (step s (Act.advanceSwap false)).1.serverBuildCache ∧
        (step s (Act.advanceSwap false)).2.count (Ev.cacheEvicted o) = 1 ∧
        Ev.closeInvoked o ∈ (step s (Act.advanceSwap false)).2) ∧
    (∀ (g : Nat) (acts : List Act),
        (run startSt acts).2.count (Ev.cacheEvicted g) ≤ 1) := by
  refine ⟨?_, ?_, ?_, ?_⟩
  · intro load cache g b hl
    simp [getServerBuild, hl]
  · intro load cache g hl
    exact ⟨by simp [getServerBuild, hl], lookup_append_of_none hl⟩
  · intro s p o g hr
    refine ⟨?_, ?_, ?_⟩
    · rw [show step s (Act.advanceSwap false) = _ from advanceStep_flush_some hr]
      intro hmem
      simp only [List.mem_filter] at hmem
      simp at hmem
    · have := count_evict_step (s := s) (a := Act.advanceSwap false) (g := o)
      rw [this]
      simp [evictsNow, hr]
    · rw [show step s (Act.advanceSwap false) = _ from advanceStep_flush_some hr]
      simp
  · intro g acts
    exact (count_evict_run acts startSt invB_startSt).1

/-- C8 witness: a concrete cache hit returns the stored artifact without
loading, and a concrete miss loads once and stores under the generation. -/
theorem claim_C8_witness :
    getServerBuild (fun x => x + 100) [(3, 7)] 3 = ([(3, 7)], 7, 0) ∧
    getServerBuild (fun x => x + 100) [(3, 7)] 4 =
      ([(3, 7), (4, 104)], 104, 1) :=
  ⟨claim_C8_theorem.1 (fun x => x + 100) [(3, 7)] 3 7 (by decide),
   (claim_C8_theorem.2.1 (fun x => x + 100) [(3, 7)] 4 (by decide)).1⟩
